import Mathlib

/-!
Shallow embedding of the Article Visibility & Aggregation Engine of the
blog backend (NestJS/TypeORM services `ArticlesService` and `CommentService`,
together with `ArticlesController`), and proofs about it.

Conventions used throughout the embedding:
* TypeScript entity classes become Lean structures; nullable columns and
  possibly-unloaded relations become `Option` fields; `Date` columns become
  `Nat` timestamps (only their ordering is ever used).
* The storage layer is modelled as in-memory lists of rows.  A TypeORM
  query-builder `WHERE` chain becomes a Bool-valued predicate and
  `List.filter`; `ORDER BY createdAt` becomes a stable insertion sort on the
  `createdAt` key; `getOne` becomes `List.head?` of the filtered rows;
  `OFFSET`/`LIMIT` become `List.drop`/`List.take` with the storage layer's
  clamping of negative values to zero.
* JavaScript `Set`/`Map` membership tests become decidable list membership
  (`decide (x ∈ l)`), which has exactly the semantics of `Set.has` /
  `Map.has` on the values involved.
-/

namespace Blog

/-- The `UserRole` string enum of the backend (`user-role.enum`), a closed
set of four roles as used by every `switch`/equality check in the services
and by `resolveRequesterRole` in the controller. -/
inductive UserRole : Type where
  | USER
  | AUTHOR
  | ADMIN
  | SUPERADMIN
deriving DecidableEq, Repr

/-- The `ServiceResponse<T>` envelope: `ok` carries a value and a null
error message, `fail` carries a non-null error message and a null value
(its `success` flag is derived from the message being null/empty). -/
inductive ServiceResponse (T : Type) : Type where
  | ok : T → ServiceResponse T
  | fail : String → ServiceResponse T
deriving DecidableEq, Repr

/-- `Tag` entity row: unique id/name/slug plus the `isDeleted` soft-delete
flag inherited from `BaseEntity`. -/
structure Tag where
  id : String
  name : String
  slug : String
  isDeleted : Bool
  createdAt : Nat
deriving DecidableEq, Repr

/-- `Category` entity row. -/
structure CategoryRow where
  id : String
  name : String
  slug : String
  isDeleted : Bool
  createdAt : Nat
deriving DecidableEq, Repr

/-- `UserProfile` row as joined through `author.profile`. -/
structure ProfileRow where
  id : String
  displayName : String
  bio : String
  profileImageUrl : String
  createdAt : Nat
deriving DecidableEq, Repr

/-- `User` row as joined through `article.author`; `profile` is the
possibly-absent one-to-one relation. -/
structure AuthorRow where
  id : String
  username : String
  profile : Option ProfileRow
deriving DecidableEq, Repr

/-- An `ArticleTag` join row as loaded into an article aggregate by
`leftJoinAndSelect('articleTags.tag', 'tag')`; `tag` is the joined tag
relation (absent when the relation did not resolve). -/
structure JoinedArticleTag where
  articleId : String
  tagId : String
  tag : Option Tag
deriving DecidableEq, Repr

/-- `Article` entity row together with the relations the article queries
join (`author`, `author.profile`, `category`, `articleTags`, `articleTags.tag`)
and the `commentsCount` added by `loadRelationCountAndMap`.  Unloaded
relations are `none`/`[]`. -/
structure Article where
  id : String
  title : String
  slug : String
  content : String
  authorId : String
  categoryId : String
  isPublished : Bool
  isDeleted : Bool
  createdAt : Nat
  createdById : Option String := none
  updatedById : Option String := none
  author : Option AuthorRow := none
  category : Option CategoryRow := none
  articleTags : List JoinedArticleTag := []
  commentsCount : Nat := 0
deriving DecidableEq, Repr

/-- `ArticleTag` join row as stored in the `article_tags` table
(the shape `syncArticleTags` creates and removes). -/
structure ArticleTagRow where
  articleId : String
  tagId : String
  createdById : Option String := none
deriving DecidableEq, Repr

/-- `User` row as read by `createArticle`'s author check. -/
structure UserRow where
  id : String
  username : String
  isDeleted : Bool
deriving DecidableEq, Repr

/-- `TagResponseDto`. -/
structure TagResponseDto where
  id : String
  name : String
  slug : String
  createdAt : Nat
deriving DecidableEq, Repr

/-- `UserProfileResponseDto`. -/
structure UserProfileResponseDto where
  id : String
  displayName : String
  bio : String
  profileImageUrl : String
  createdAt : Nat
deriving DecidableEq, Repr

/-- `UserResponseDto` as populated by `mapToArticleResponseDto` (id,
username and the optional profile). -/
structure UserResponseDto where
  id : String
  username : String
  profile : Option UserProfileResponseDto := none
deriving DecidableEq, Repr

/-- `CategoryResponseDto`. -/
structure CategoryResponseDto where
  id : String
  name : String
  slug : String
  createdAt : Nat
deriving DecidableEq, Repr

/-- `ArticleResponseDto`, the external article representation. -/
structure ArticleResponseDto where
  id : String
  title : String
  slug : String
  content : String
  isPublished : Bool
  isDeleted : Bool
  commentsCount : Nat
  createdAt : Nat
  author : Option UserResponseDto := none
  category : Option CategoryResponseDto := none
  tags : List TagResponseDto := []
deriving DecidableEq, Repr

/-- The `PaginatedResult<T>` shape returned by `getPagedArticles`.
`currentPage` and `pageSize` are JavaScript numbers echoed from the request,
hence `Int` here. -/
structure PaginatedResult (T : Type) : Type where
  items : List T
  currentPage : Int
  pageSize : Int
  totalCount : Nat
  isAscending : Bool
deriving DecidableEq, Repr

/-- The parameter object of `ArticlesService.getPagedArticles`, with the
destructuring defaults of the source (`page = 1`, `pageSize = 10`,
`isAscending = false`, `includeDeleted = false`). -/
structure PagedParams where
  requesterRole : UserRole
  requesterUserId : Option String := none
  categorySlug : Option String := none
  tagSlug : Option String := none
  keyword : Option String := none
  page : Int := 1
  pageSize : Int := 10
  isAscending : Bool := false
  includeDeleted : Bool := false
deriving DecidableEq, Repr

/-- Shorthand for the privileged-role check the articles service writes
inline everywhere:
`requesterRole === UserRole.ADMIN || requesterRole === UserRole.SUPERADMIN`. -/
def isPrivilegedRole (role : UserRole) : Bool :=
  role == UserRole.ADMIN || role == UserRole.SUPERADMIN

/-- `ArticlesService.applyVisibilityRules` as the predicate the appended
`WHERE` clauses denote.  The first conjunct is the deleted-handling block
(admins skip the `isDeleted = false` clause only when `includeDeleted` is
set; everyone else always gets it); the second is the role `switch`
(USER: published only; AUTHOR: own-or-published when a requester id is
present, published only otherwise; ADMIN/SUPERADMIN: no extra clause). -/
def applyVisibilityRules (requesterRole : UserRole) (requesterUserId : Option String)
    (includeDeleted : Bool) (article : Article) : Bool :=
  (if isPrivilegedRole requesterRole then
      (if !includeDeleted then !article.isDeleted else true)
    else !article.isDeleted)
  &&
  (match requesterRole with
   | UserRole.USER => article.isPublished
   | UserRole.AUTHOR =>
       match requesterUserId with
       | some uid => article.authorId == uid || article.isPublished
       | none => article.isPublished
   | UserRole.ADMIN => true
   | UserRole.SUPERADMIN => true)

/-- `ArticlesService.canModifyArticle`: admins may modify anything, an
author only their own article, everyone else nothing. -/
def canModifyArticle (article : Article) (requesterRole : UserRole)
    (requesterUserId : String) : Bool :=
  if isPrivilegedRole requesterRole then true
  else if requesterRole == UserRole.AUTHOR && article.authorId == requesterUserId then true
  else false

/-- `ArticlesService.mapToArticleResponseDto`.  The tag mapping transcribes
`articleTags.filter((at) => at.tag).map((at) => ...)`: join rows whose `tag`
relation is absent are dropped (`filterMap` over the loaded tag), everything
else is mapped to a `TagResponseDto`; the source's explicit
`articleTags && articleTags.length > 0` guard is kept as the `isEmpty`
branch.  An absent author or profile relation simply yields `none`. -/
def mapToArticleResponseDto (article : Article) : ArticleResponseDto :=
  { id := article.id
    title := article.title
    slug := article.slug
    content := article.content
    isPublished := article.isPublished
    isDeleted := article.isDeleted
    commentsCount := article.commentsCount
    createdAt := article.createdAt
    author := article.author.map (fun author =>
      { id := author.id
        username := author.username
        profile := author.profile.map (fun p =>
          { id := p.id
            displayName := p.displayName
            bio := p.bio
            profileImageUrl := p.profileImageUrl
            createdAt := p.createdAt }) })
    category := article.category.map (fun c =>
      { id := c.id, name := c.name, slug := c.slug, createdAt := c.createdAt })
    tags :=
      if article.articleTags.isEmpty then []
      else article.articleTags.filterMap (fun row =>
        row.tag.map (fun t =>
          { id := t.id, name := t.name, slug := t.slug, createdAt := t.createdAt })) }

/-- `pat` occurs as a leading segment of `l` (character-wise). -/
def charsLead (pat : List Char) (l : List Char) : Bool :=
  match pat, l with
  | [], _ => true
  | _ :: _, [] => false
  | a :: as, b :: bs => a == b && charsLead as bs

/-- `pat` occurs as a contiguous segment of `l`. -/
def charsSegment (pat : List Char) (l : List Char) : Bool :=
  match l with
  | [] => charsLead pat []
  | b :: bs => charsLead pat (b :: bs) || charsSegment pat bs

/-- The SQL predicate `LOWER(hay) LIKE LOWER('%' || pat || '%')`:
case-insensitive substring containment. -/
def likeContains (hay : String) (pat : String) : Bool :=
  charsSegment (pat.toList.map Char.toLower) (hay.toList.map Char.toLower)

/-- The full row predicate accumulated by `getPagedArticles` before
`getCount`: visibility rules AND the category-slug, tag-slug and keyword
filters.  Each filter is guarded exactly like the source's
`if (categorySlug)` / `if (tagSlug)` / `if (keyword)` truthiness checks, so
an empty string adds no clause.  The tag clause `tag.slug = :tagSlug` holds
for an article row when any of its joined tag rows matches (TypeORM counts
and pages over distinct article ids). -/
def pagedFilter (p : PagedParams) (article : Article) : Bool :=
  applyVisibilityRules p.requesterRole p.requesterUserId p.includeDeleted article
  && (match p.categorySlug with
      | none => true
      | some cs =>
          if cs == "" then true
          else match article.category with
               | some c => c.slug == cs
               | none => false)
  && (match p.tagSlug with
      | none => true
      | some ts =>
          if ts == "" then true
          else article.articleTags.any (fun row =>
            match row.tag with
            | some t => t.slug == ts
            | none => false))
  && (match p.keyword with
      | none => true
      | some kw =>
          if kw == "" then true
          else likeContains article.title kw || likeContains article.content kw)

/-- `ORDER BY article.createdAt ASC|DESC` as a stable sort on the creation
timestamp (ties keep the storage order, matching the stable-order
requirement). -/
def sortArticles (isAscending : Bool) (l : List Article) : List Article :=
  if isAscending then
    List.insertionSort (fun a b => a.createdAt ≤ b.createdAt) l
  else
    List.insertionSort (fun a b => b.createdAt ≤ a.createdAt) l

/-- `ArticlesService.getPagedArticles` over a stored article table `db`:
clamp the page size to 20 (`Math.min(requestedPageSize, 20)`), compute
`skip = (page - 1) * pageSize` (a plain JavaScript number, possibly
negative), take the total count of the filtered rows *before* the window,
sort, apply the `OFFSET`/`LIMIT` window (the storage layer clamps a
negative `OFFSET` to zero and `LIMIT n` returns at most `n` rows, which is
what `Int.toNat` encodes), and map the page to DTOs. -/
def getPagedArticles (db : List Article) (p : PagedParams) :
    ServiceResponse (PaginatedResult ArticleResponseDto) :=
  let pageSize : Int := min p.pageSize 20
  let skip : Int := (p.page - 1) * pageSize
  let filtered := db.filter (pagedFilter p)
  let totalCount := filtered.length
  let sorted := sortArticles p.isAscending filtered
  let pageItems := (sorted.drop skip.toNat).take pageSize.toNat
  ServiceResponse.ok
    { items := pageItems.map mapToArticleResponseDto
      currentPage := p.page
      pageSize := pageSize
      totalCount := totalCount
      isAscending := p.isAscending }

/-- The items of the page `getPagedArticles` returns (it always returns
`ok`). -/
def pagedItems (db : List Article) (p : PagedParams) : List ArticleResponseDto :=
  match getPagedArticles db p with
  | ServiceResponse.ok r => r.items
  | ServiceResponse.fail _ => []

/-- The `totalCount` of the result of `getPagedArticles`. -/
def pagedTotalCount (db : List Article) (p : PagedParams) : Nat :=
  match getPagedArticles db p with
  | ServiceResponse.ok r => r.totalCount
  | ServiceResponse.fail _ => 0

/-- `ArticlesService.getArticleBySlug`: one query with the slug equality
and the visibility rules (`includeDeleted` hard-wired to `false`); `getOne`
returns the first matching row; an absent row yields the single generic
failure message. -/
def getArticleBySlug (db : List Article) (slug : String) (requesterRole : UserRole)
    (requesterUserId : Option String) : ServiceResponse ArticleResponseDto :=
  match (db.filter (fun a =>
      a.slug == slug && applyVisibilityRules requesterRole requesterUserId false a)).head? with
  | some article => ServiceResponse.ok (mapToArticleResponseDto article)
  | none => ServiceResponse.fail "Article not found or access denied"

/-- `ArticlesController.getArticleBySlug`: the public by-slug route always
calls the service with `UserRole.USER` and no requester id. -/
def controllerGetArticleBySlug (db : List Article) (slug : String) :
    ServiceResponse ArticleResponseDto :=
  getArticleBySlug db slug UserRole.USER none

/-- Worker of `dedupKeepFirst`: JavaScript `Set` iteration order keeps the
first occurrence of each element. -/
def dedupKeepFirstGo (seen : List String) : List String → List String
  | [] => []
  | a :: rest =>
      if decide (a ∈ seen) then dedupKeepFirstGo seen rest
      else a :: dedupKeepFirstGo (a :: seen) rest

/-- `Array.from(new Set(l))`: de-duplication keeping the first occurrence
of each element, in input order. -/
def dedupKeepFirst (l : List String) : List String :=
  dedupKeepFirstGo [] l

/-- `ArticlesService.normalizeTagIds`: an absent or empty input yields `[]`;
otherwise falsy (empty-string) entries are dropped (`filter(Boolean)`) and
the rest de-duplicated via a `Set`. -/
def normalizeTagIds (tagIds : Option (List String)) : List String :=
  match tagIds with
  | none => []
  | some l =>
      if l.isEmpty then []
      else dedupKeepFirst (l.filter (fun s => s != ""))

/-- `ArticlesService.validateTagIds` against the `tags` table: look up the
rows with `id IN tagIds AND isDeleted = false`; if fewer rows come back
than ids were requested, fail listing the ids that did not resolve to a
live tag. -/
def validateTagIds (tags : List Tag) (tagIds : List String) : ServiceResponse Unit :=
  if tagIds.isEmpty then ServiceResponse.ok ()
  else
    let found := tags.filter (fun t => decide (t.id ∈ tagIds) && !t.isDeleted)
    if found.length != tagIds.length then
      let foundIds := found.map (fun t => t.id)
      let missing := tagIds.filter (fun tagId => !(decide (tagId ∈ foundIds)))
      ServiceResponse.fail ("Invalid tag IDs: " ++ String.intercalate ", " missing)
    else ServiceResponse.ok ()

/-- The write set a call to `syncArticleTags` issues: the rows passed to
`repository.remove` and the rows passed to `repository.save`. -/
structure SyncWrites where
  removed : List ArticleTagRow
  added : List ArticleTagRow
deriving DecidableEq, Repr

/-- The `existing` rows of `syncArticleTags`: the current associations of
the article (`find({ where: { articleId } })`). -/
def syncExisting (rows : List ArticleTagRow) (articleId : String) : List ArticleTagRow :=
  rows.filter (fun r => r.articleId == articleId)

/-- The `toAdd` set of `syncArticleTags`: desired tag ids with no current
association row. -/
def syncToAdd (rows : List ArticleTagRow) (articleId : String)
    (tagIds : List String) : List String :=
  tagIds.filter (fun tagId =>
    !(decide (tagId ∈ (syncExisting rows articleId).map (fun r => r.tagId))))

/-- The `toRemove` set of `syncArticleTags`: current association rows whose
tag id is not desired. -/
def syncToRemove (rows : List ArticleTagRow) (articleId : String)
    (tagIds : List String) : List ArticleTagRow :=
  (syncExisting rows articleId).filter (fun r => !(decide (r.tagId ∈ tagIds)))

/-- The fresh rows `syncArticleTags` creates for the `toAdd` ids. -/
def syncAdditions (rows : List ArticleTagRow) (articleId : String)
    (tagIds : List String) (userId : String) : List ArticleTagRow :=
  (syncToAdd rows articleId tagIds).map (fun tagId =>
    ({ articleId := articleId, tagId := tagId, createdById := some userId } : ArticleTagRow))

/-- `ArticlesService.syncArticleTags` over the stored `article_tags` rows:
read the current associations of the article, diff them against the desired
tag-id set (`toAdd` = desired ids with no current row, `toRemove` = current
rows whose tag id is not desired), remove `toRemove`, insert a fresh row
per `toAdd` id.  Returns the table after the call together with the writes
performed. -/
def syncArticleTags (rows : List ArticleTagRow) (articleId : String)
    (tagIds : List String) (userId : String) : List ArticleTagRow × SyncWrites :=
  (rows.filter (fun r => !(decide (r ∈ syncToRemove rows articleId tagIds)))
     ++ syncAdditions rows articleId tagIds userId,
   { removed := syncToRemove rows articleId tagIds
     added := syncAdditions rows articleId tagIds userId })

/-- The storage state the article mutations touch: the `articles`,
`article_tags`, `tags`, `users` and `categories` tables. -/
structure Db where
  articles : List Article
  articleTags : List ArticleTagRow
  tags : List Tag
  users : List UserRow
  categories : List CategoryRow
deriving DecidableEq, Repr

/-- `UpdateArticleDto`: every field of the create DTO made optional (the
service checks `dto.tagIds !== undefined` and `Object.assign`s only the
present fields). -/
structure UpdateArticleDto where
  title : Option String := none
  slug : Option String := none
  content : Option String := none
  categoryId : Option String := none
  isPublished : Option Bool := none
  tagIds : Option (List String) := none
deriving DecidableEq, Repr

/-- `CreateArticleDto`: required title/slug/content/categoryId, optional
publish flag (default false) and tag ids. -/
structure CreateArticleDto where
  title : String
  slug : String
  content : String
  categoryId : String
  isPublished : Bool := false
  tagIds : Option (List String) := none
deriving DecidableEq, Repr

/-- `Object.assign(article, articlePayload)` for an update DTO with the
`tagIds` key already split off: overwrite exactly the fields the DTO
carries. -/
def assignUpdateDto (article : Article) (dto : UpdateArticleDto) : Article :=
  { article with
    title := dto.title.getD article.title
    slug := dto.slug.getD article.slug
    content := dto.content.getD article.content
    categoryId := dto.categoryId.getD article.categoryId
    isPublished := dto.isPublished.getD article.isPublished }

/-- `repository.save` on an already-persisted article: replace the row with
the matching id. -/
def saveArticle (articles : List Article) (a : Article) : List Article :=
  articles.map (fun b => if b.id == a.id then a else b)

/-- The unique-slug constraint of the `articles` table, which the storage
layer raises on save: some other row already carries this slug. -/
def slugConflict (articles : List Article) (a : Article) : Bool :=
  articles.any (fun b => b.id != a.id && b.slug == a.slug)

/-- `ArticlesService.updateArticle`: fetch by id, check `canModifyArticle`,
normalize and validate the tag ids if the DTO carries any, assign the
payload and save (a unique-constraint violation surfaces as the duplicate
slug failure), then run `syncArticleTags`.  Returns the response and the
storage state after the call.  (The source re-fetches the saved aggregate
to build the `ok` payload; the payload is mapped from the updated row
here, which no claim below inspects.) -/
def updateArticle (db : Db) (articleId : String) (dto : UpdateArticleDto)
    (requesterRole : UserRole) (requesterUserId : String) :
    ServiceResponse ArticleResponseDto × Db :=
  match db.articles.find? (fun a => a.id == articleId) with
  | none => (ServiceResponse.fail "Article not found", db)
  | some article =>
    if !canModifyArticle article requesterRole requesterUserId then
      (ServiceResponse.fail "Access denied: You cannot update this article", db)
    else
      let normalizedTagIds : Option (List String) :=
        dto.tagIds.map (fun l => normalizeTagIds (some l))
      let tagCheck : ServiceResponse Unit :=
        match normalizedTagIds with
        | some ids => validateTagIds db.tags ids
        | none => ServiceResponse.ok ()
      match tagCheck with
      | ServiceResponse.fail msg => (ServiceResponse.fail msg, db)
      | ServiceResponse.ok _ =>
        let updated := { assignUpdateDto article dto with updatedById := some requesterUserId }
        if slugConflict db.articles updated then
          (ServiceResponse.fail "Article with this slug already exists", db)
        else
          let articles1 := saveArticle db.articles updated
          let rows1 :=
            match normalizedTagIds with
            | some ids => (syncArticleTags db.articleTags articleId ids requesterUserId).1
            | none => db.articleTags
          (ServiceResponse.ok (mapToArticleResponseDto updated),
           { db with articles := articles1, articleTags := rows1 })

/-- `ArticlesService.softDeleteArticle`: fetch by id, reject an already
soft-deleted row, check `canModifyArticle`, then set the `isDeleted` flag
and save. -/
def softDeleteArticle (db : Db) (articleId : String) (requesterRole : UserRole)
    (requesterUserId : String) : ServiceResponse Unit × Db :=
  match db.articles.find? (fun a => a.id == articleId) with
  | none => (ServiceResponse.fail "Article not found", db)
  | some article =>
    if article.isDeleted then
      (ServiceResponse.fail "Article is already deleted", db)
    else if !canModifyArticle article requesterRole requesterUserId then
      (ServiceResponse.fail "Access denied: You cannot delete this article", db)
    else
      let updated := { article with isDeleted := true, updatedById := some requesterUserId }
      (ServiceResponse.ok (), { db with articles := saveArticle db.articles updated })

/-- The category validation block at the top of `createArticle`, guarded by
the `if (dto.categoryId)` truthiness check: a present (non-empty) category
id must resolve to a stored, non-deleted category. -/
def createCategoryCheck (db : Db) (dto : CreateArticleDto) : ServiceResponse Unit :=
  if dto.categoryId == "" then ServiceResponse.ok ()
  else
    match db.categories.find? (fun c => c.id == dto.categoryId) with
    | none => ServiceResponse.fail
        ("Invalid category ID: Category with ID \"" ++ dto.categoryId ++
         "\" does not exist. Use GET /categories to find valid categories.")
    | some category =>
      if category.isDeleted then
        ServiceResponse.fail
          "Invalid category: The selected category has been deleted. Use GET /categories to find active categories."
      else ServiceResponse.ok ()

/-- `ArticlesService.createArticle`: validate the author (exists, not
deleted) and the category, normalize and validate the tag ids, insert the
article row (`newId`/`now` stand for the id and `createdAt` the storage
layer generates; a duplicate slug surfaces as the unique-constraint
failure), then run `syncArticleTags` when any tags were requested. -/
def createArticle (db : Db) (dto : CreateArticleDto) (authorId : String)
    (newId : String) (now : Nat) : ServiceResponse ArticleResponseDto × Db :=
  match db.users.find? (fun u => u.id == authorId) with
  | none => (ServiceResponse.fail
      ("Invalid author: User with ID \"" ++ authorId ++
       "\" does not exist. This is likely a mock authentication issue - you need to create a real user first or fix the JWT mock."), db)
  | some author =>
    if author.isDeleted then
      (ServiceResponse.fail "Author account has been deleted", db)
    else
      match createCategoryCheck db dto with
      | ServiceResponse.fail msg => (ServiceResponse.fail msg, db)
      | ServiceResponse.ok _ =>
        let normalizedTagIds := normalizeTagIds dto.tagIds
        match validateTagIds db.tags normalizedTagIds with
        | ServiceResponse.fail msg => (ServiceResponse.fail msg, db)
        | ServiceResponse.ok _ =>
          let article : Article :=
            { id := newId
              title := dto.title
              slug := dto.slug
              content := dto.content
              authorId := authorId
              categoryId := dto.categoryId
              isPublished := dto.isPublished
              isDeleted := false
              createdAt := now
              createdById := some authorId }
          if db.articles.any (fun b => b.slug == article.slug) then
            (ServiceResponse.fail
              ("Article with slug \"" ++ dto.slug ++
               "\" already exists. Please use a different slug."), db)
          else
            let articles1 := db.articles ++ [article]
            let rows1 :=
              if normalizedTagIds.length > 0 then
                (syncArticleTags db.articleTags newId normalizedTagIds authorId).1
              else db.articleTags
            (ServiceResponse.ok (mapToArticleResponseDto article),
             { db with articles := articles1, articleTags := rows1 })

/-- `Comment` entity row (the fields `getCommentsByArticle`,
`buildCommentTree` and `softDeleteComment` read and write). -/
structure CommentRec where
  id : String
  content : String
  articleId : String
  userId : String
  parentCommentId : Option String := none
  isDeleted : Bool := false
  createdAt : Nat := 0
  updatedById : Option String := none
deriving DecidableEq, Repr

/-- A node of the assembled comment forest (`CommentResponseDto` with its
`children` list; the joined `user` payload mapping is not load-bearing for
any claim about the tree shape and is kept out of the node). -/
inductive CommentNode : Type where
  | node : String → String → Nat → List CommentNode → CommentNode
deriving Repr

/-- The id of a comment node. -/
def CommentNode.id : CommentNode → String
  | CommentNode.node i _ _ _ => i

/-- The content of a comment node. -/
def CommentNode.content : CommentNode → String
  | CommentNode.node _ c _ _ => c

/-- The children of a comment node. -/
def CommentNode.children : CommentNode → List CommentNode
  | CommentNode.node _ _ _ ch => ch

/-- `CommentService.isAdminRole`. -/
def isAdminRole (role : UserRole) : Bool :=
  role == UserRole.ADMIN || role == UserRole.SUPERADMIN

/-- A comment the loop of `buildCommentTree` pushes onto `roots`:
`parentIdById.get(id) ?? null` is falsy (`null` or the empty string), or
no comment with that id is indexed in `nodeById`. -/
def jsIsRoot (comments : List CommentRec) (c : CommentRec) : Bool :=
  match c.parentCommentId with
  | none => true
  | some p => p == "" || !(comments.any (fun d => d.id == p))

/-- The comments the loop pushes onto the `children` of the indexed node
`pid`, in input order: those whose parent reference is non-falsy and equal
to `pid`. -/
def childrenOf (comments : List CommentRec) (pid : String) : List CommentRec :=
  comments.filter (fun c =>
    match c.parentCommentId with
    | none => false
    | some p => p != "" && p == pid)

/-- The node the mutation loop of `buildCommentTree` leaves behind for the
comment `c`: its own fields plus, as children, the nodes of the comments
that attach to it, in input order.  `fuel` bounds the recursion depth;
since a parent chain starting from a root never repeats a comment, a fuel
of `comments.length` reproduces the loop's result exactly (see
`buildCommentTree`). -/
def buildNode (comments : List CommentRec) : Nat → CommentRec → CommentNode
  | 0, c => CommentNode.node c.id c.content c.createdAt []
  | fuel + 1, c =>
      CommentNode.node c.id c.content c.createdAt
        ((childrenOf comments c.id).map (fun d => buildNode comments fuel d))

/-- `CommentService.buildCommentTree`: index every comment by id, then walk
the comments in input order pushing each onto `roots` (parent reference
falsy or not indexed) or onto its indexed parent's `children`.  The
returned forest therefore consists of one tree per root comment, in input
order, each node listing as children the comments that resolved to it, in
input order; comments only reachable through a parent cycle never hang off
a root and are absent from the result — exactly what the functional
reading below computes (node identity assumes unique comment ids, which
the id primary key guarantees and the theorems assume where needed). -/
def buildCommentTree (comments : List CommentRec) : List CommentNode :=
  (comments.filter (fun c => jsIsRoot comments c)).map
    (fun c => buildNode comments comments.length c)

/-- `CommentService.getCommentsByArticle`: select the article's comments
(ordered by creation time ascending), restrict to non-deleted rows unless
the caller is an admin role, and assemble the tree. -/
def getCommentsByArticle (comments : List CommentRec) (articleId : String)
    (requesterRole : UserRole) : ServiceResponse (List CommentNode) :=
  let base := comments.filter (fun c => c.articleId == articleId)
  let visible :=
    if isAdminRole requesterRole then base
    else base.filter (fun c => !c.isDeleted)
  let sorted := List.insertionSort (fun a b => a.createdAt ≤ b.createdAt) visible
  ServiceResponse.ok (buildCommentTree sorted)

/-- `CommentService.softDeleteComment`: fetch the comment, check the
owner-or-admin permission, and redact — set `isDeleted` and replace the
content with the `'[deleted]'` sentinel, keeping the row (an already
redacted row is left as is). -/
def softDeleteComment (comments : List CommentRec) (commentId : String)
    (userId : String) (requesterRole : UserRole) :
    ServiceResponse Unit × List CommentRec :=
  match comments.find? (fun c => c.id == commentId) with
  | none => (ServiceResponse.fail "Comment not found", comments)
  | some comment =>
    if !(comment.userId == userId || isAdminRole requesterRole) then
      (ServiceResponse.fail "You are not allowed to delete this comment", comments)
    else if comment.isDeleted && comment.content == "[deleted]" then
      (ServiceResponse.ok (), comments)
    else
      (ServiceResponse.ok (),
       comments.map (fun d =>
         if d.id == comment.id then
           { d with isDeleted := true, content := "[deleted]", updatedById := some userId }
         else d))

/-- The window of rows page `i` (0-based) receives when pages are `k` rows
wide: `OFFSET i*k LIMIT k`. -/
def pageWindow (l : List α) (k : Nat) (i : Nat) : List α :=
  (l.drop (i * k)).take k

mutual

/-- All comment ids occurring in a comment node, root included. -/
def CommentNode.selfIds : CommentNode → List String
  | CommentNode.node i _ _ ch => i :: forestIds ch

/-- All comment ids occurring in a comment forest. -/
def forestIds : List CommentNode → List String
  | [] => []
  | n :: rest => CommentNode.selfIds n ++ forestIds rest

end

/-- Fixture: a soft-deleted article owned by `alice`. -/
def exDeletedArticle : Article :=
  { id := "a1", title := "T1", slug := "s", content := "body1", authorId := "alice",
    categoryId := "c1", isPublished := true, isDeleted := true, createdAt := 1 }

/-- Fixture: a live, published article owned by `alice`. -/
def exLiveArticle : Article :=
  { id := "a3", title := "T3", slug := "s3", content := "body3", authorId := "alice",
    categoryId := "c1", isPublished := true, isDeleted := false, createdAt := 4 }

/-- Fixture: storage state holding just the soft-deleted article. -/
def exDb : Db :=
  { articles := [exDeletedArticle], articleTags := [], tags := [], users := [], categories := [] }

/-- Fixture: a soft-deleted tag. -/
def exStaleTag : Tag :=
  { id := "t1", name := "Old", slug := "old", isDeleted := true, createdAt := 3 }

/-- Fixture: an article aggregate whose only join row still references the
soft-deleted tag `exStaleTag`. -/
def exArticleStaleTag : Article :=
  { id := "a2", title := "T2", slug := "s2", content := "body2", authorId := "alice",
    categoryId := "c1", isPublished := true, isDeleted := false, createdAt := 2,
    articleTags := [{ articleId := "a2", tagId := "t1", tag := some exStaleTag }] }

/-- Fixture: storage state for the tag-validation scenario — a live article
owned by `alice`, one existing association, and a tag table containing only
the soft-deleted `exStaleTag`. -/
def exTagDb : Db :=
  { articles := [exLiveArticle]
    articleTags := [{ articleId := "a3", tagId := "t0", createdById := some "alice" }]
    tags := [exStaleTag]
    users := [{ id := "alice", username := "alice", isDeleted := false }]
    categories := [{ id := "c1", name := "Cat", slug := "cat", isDeleted := false, createdAt := 0 }] }

/-- Fixture: a redacted (soft-deleted) root comment on article `a1`. -/
def exRedactedComment : CommentRec :=
  { id := "cm1", content := "[deleted]", articleId := "a1", userId := "u1",
    parentCommentId := none, isDeleted := true, createdAt := 1 }

/-- Fixture: a live comment whose parent reference resolves to no stored
comment. -/
def exOrphanComment : CommentRec :=
  { id := "cm2", content := "hello", articleId := "a1", userId := "u2",
    parentCommentId := some "zz", isDeleted := false, createdAt := 2 }

/-- Fixture: the flat comment list of the specification example —
`[{id:1,parent:null},{id:2,parent:1},{id:3,parent:1},{id:4,parent:2}]`
in ascending creation order. -/
def exFlatComments : List CommentRec :=
  [ { id := "1", content := "c1", articleId := "a1", userId := "u", parentCommentId := none, createdAt := 1 },
    { id := "2", content := "c2", articleId := "a1", userId := "u", parentCommentId := some "1", createdAt := 2 },
    { id := "3", content := "c3", articleId := "a1", userId := "u", parentCommentId := some "1", createdAt := 3 },
    { id := "4", content := "c4", articleId := "a1", userId := "u", parentCommentId := some "2", createdAt := 4 } ]

/-- Fixture: three live published articles with distinct ids for the
pagination scenarios. -/
def exPagedDb : List Article :=
  [ { id := "p1", title := "A", slug := "pa", content := "x", authorId := "alice",
      categoryId := "c1", isPublished := true, isDeleted := false, createdAt := 3 },
    { id := "p2", title := "B", slug := "pb", content := "y", authorId := "alice",
      categoryId := "c1", isPublished := true, isDeleted := false, createdAt := 1 },
    { id := "p3", title := "C", slug := "pc", content := "z", authorId := "bob",
      categoryId := "c1", isPublished := true, isDeleted := false, createdAt := 2 } ]

/-- Fixture: a USER-role paged request with two rows per page. -/
def exPagedParams : PagedParams :=
  { requesterRole := UserRole.USER, pageSize := 2 }

/-! ## Helper lemmas -/

theorem sortArticles_perm (isAscending : Bool) (l : List Article) :
    (sortArticles isAscending l).Perm l := by
  unfold sortArticles
  split <;> exact List.perm_insertionSort _ _

theorem vis_deleted_eq_false (role : UserRole) (uid : Option String) (includeDeleted : Bool)
    (a : Article) (hpriv : isPrivilegedRole role = false) (hdel : a.isDeleted = true) :
    applyVisibilityRules role uid includeDeleted a = false := by
  simp [applyVisibilityRules, hpriv, hdel]

theorem isDeleted_false_of_vis (role : UserRole) (uid : Option String) (includeDeleted : Bool)
    (a : Article) (hpriv : isPrivilegedRole role = false)
    (hv : applyVisibilityRules role uid includeDeleted a = true) : a.isDeleted = false := by
  cases hdel : a.isDeleted
  · rfl
  · rw [vis_deleted_eq_false role uid includeDeleted a hpriv hdel] at hv
    exact absurd hv (by simp)

theorem pagedItems_eq (db : List Article) (p : PagedParams) :
    pagedItems db p =
      (((sortArticles p.isAscending (db.filter (pagedFilter p))).drop
          ((p.page - 1) * min p.pageSize 20).toNat).take
        (min p.pageSize 20).toNat).map mapToArticleResponseDto := rfl

theorem pagedTotalCount_eq (db : List Article) (p : PagedParams) :
    pagedTotalCount db p = (db.filter (pagedFilter p)).length := rfl

theorem canModify_author_nonowner (a : Article) (uid : String) (h : a.authorId ≠ uid) :
    canModifyArticle a UserRole.AUTHOR uid = false := by
  simp [canModifyArticle, isPrivilegedRole, h]

theorem buildNode_id (l : List CommentRec) (fuel : Nat) (c : CommentRec) :
    (buildNode l fuel c).id = c.id := by
  cases fuel <;> rfl

theorem buildCommentTree_map_id (l : List CommentRec) :
    (buildCommentTree l).map CommentNode.id
      = (l.filter (fun c => jsIsRoot l c)).map CommentRec.id := by
  unfold buildCommentTree
  rw [List.map_map]
  exact List.map_congr_left (fun c _ => buildNode_id l l.length c)

theorem jsIsRoot_of_none (l : List CommentRec) (c : CommentRec)
    (h : c.parentCommentId = none) : jsIsRoot l c = true := by
  simp [jsIsRoot, h]

theorem jsIsRoot_of_unresolved (l : List CommentRec) (c : CommentRec) (p : String)
    (h : c.parentCommentId = some p) (hnone : ∀ d ∈ l, d.id ≠ p) :
    jsIsRoot l c = true := by
  unfold jsIsRoot
  rw [h]
  have hany : l.any (fun d => d.id == p) = false := by
    rw [List.any_eq_false]
    intro d hd
    simp [hnone d hd]
  simp [hany]

theorem mem_rootIds_of_jsIsRoot (l : List CommentRec) (c : CommentRec)
    (hc : c ∈ l) (hroot : jsIsRoot l c = true) :
    c.id ∈ (buildCommentTree l).map CommentNode.id := by
  rw [buildCommentTree_map_id]
  exact List.mem_map_of_mem _ (List.mem_filter.mpr ⟨hc, hroot⟩)

/-! ## Claim C1 -/

/-- Claim C1: for every caller whose effective role is not ADMIN or
SUPERADMIN, the article list predicate (`applyVisibilityRules`, as used by
`getPagedArticles`) and the single-article by-slug lookup exclude every
soft-deleted article, regardless of the caller's `includeDeleted` request
and of the article's publish state; the `includeDeleted` flag changes the
predicate only for privileged roles. -/
theorem applyVisibilityRules_softDeleted_invisible :
    (∀ (role : UserRole) (uid : Option String) (includeDeleted : Bool) (a : Article),
        isPrivilegedRole role = false → a.isDeleted = true →
        applyVisibilityRules role uid includeDeleted a = false)
  ∧ (∀ (role : UserRole) (uid : Option String) (a : Article),
        isPrivilegedRole role = false →
        applyVisibilityRules role uid true a = applyVisibilityRules role uid false a)
  ∧ (∀ (db : List Article) (slug : String) (role : UserRole) (uid : Option String)
        (d : ArticleResponseDto), isPrivilegedRole role = false →
        getArticleBySlug db slug role uid = ServiceResponse.ok d → d.isDeleted = false)
  ∧ (∀ (db : List Article) (p : PagedParams) (d : ArticleResponseDto),
        isPrivilegedRole p.requesterRole = false →
        d ∈ pagedItems db p → d.isDeleted = false) := by
  refine ⟨vis_deleted_eq_false, ?_, ?_, ?_⟩
  · intro role uid a hpriv
    simp [applyVisibilityRules, hpriv]
  · intro db slug role uid d hpriv hok
    rcases hh : (db.filter (fun a =>
        a.slug == slug && applyVisibilityRules role uid false a)).head? with _ | a
    · simp [getArticleBySlug, hh] at hok
    · simp only [getArticleBySlug, hh, ServiceResponse.ok.injEq] at hok
      obtain ⟨t, ht⟩ := List.head?_eq_some_iff.mp hh
      have hmem : a ∈ db.filter (fun a =>
          a.slug == slug && applyVisibilityRules role uid false a) := by
        rw [ht]; exact List.mem_cons_self _ _
      have hpred := (List.mem_filter.mp hmem).2
      have hvis : applyVisibilityRules role uid false a = true := by
        rw [Bool.and_eq_true] at hpred
        exact hpred.2
      have : a.isDeleted = false := isDeleted_false_of_vis role uid false a hpriv hvis
      rw [← hok]
      simpa [mapToArticleResponseDto] using this
  · intro db p d hpriv hd
    rw [pagedItems_eq] at hd
    obtain ⟨a, ha, rfl⟩ := List.mem_map.mp hd
    have ha1 : a ∈ sortArticles p.isAscending (db.filter (pagedFilter p)) :=
      List.mem_of_mem_drop (List.mem_of_mem_take ha)
    have ha2 : a ∈ db.filter (pagedFilter p) :=
      ((sortArticles_perm p.isAscending _).mem_iff).mp ha1
    have hpred := (List.mem_filter.mp ha2).2
    have hvis : applyVisibilityRules p.requesterRole p.requesterUserId p.includeDeleted a = true := by
      simp only [pagedFilter, Bool.and_eq_true] at hpred
      exact hpred.1.1.1
    have : a.isDeleted = false :=
      isDeleted_false_of_vis _ _ _ a hpriv hvis
    simpa [mapToArticleResponseDto] using this

/-- Witness for C1 at a concrete soft-deleted article and non-privileged
roles. -/
theorem applyVisibilityRules_softDeleted_invisible_witness :
    applyVisibilityRules UserRole.USER none true exDeletedArticle = false
  ∧ applyVisibilityRules UserRole.AUTHOR (some "alice") true exDeletedArticle =
      applyVisibilityRules UserRole.AUTHOR (some "alice") false exDeletedArticle :=
  ⟨applyVisibilityRules_softDeleted_invisible.1 UserRole.USER none true exDeletedArticle
      (by decide) (by decide),
   applyVisibilityRules_softDeleted_invisible.2.1 UserRole.AUTHOR (some "alice") exDeletedArticle
      (by decide)⟩

/-! ## Claim C2 -/

/-- Counterexample to claim C2 as stated: an AUTHOR caller who does not
own the (already soft-deleted) article `exDeletedArticle` calls
`softDeleteArticle`; the operation fails with the early
`'Article is already deleted'` guard, which fires *before* the permission
check, so the returned outcome is not the access-denied outcome the claim
promises for every article. -/
theorem softDeleteArticle_alreadyDeleted_not_accessDenied :
    exDb.articles.find? (fun x => x.id == "a1") = some exDeletedArticle
  ∧ exDeletedArticle.authorId ≠ "bob"
  ∧ softDeleteArticle exDb "a1" UserRole.AUTHOR "bob" =
      (ServiceResponse.fail "Article is already deleted", exDb)
  ∧ "Article is already deleted" ≠ "Access denied: You cannot delete this article" :=
  ⟨rfl, by decide, rfl, by decide⟩

/-- Claim C2 (amended): for every stored article `A` and every AUTHOR
caller whose id differs from `A.authorId`, the modification check denies
the operation and the storage state is left unchanged: `updateArticle`
always returns the access-denied outcome, and `softDeleteArticle` returns
the access-denied outcome when `A` is not already soft-deleted (when it
is, the already-deleted failure fires before the permission check). -/
theorem authorNonOwner_mutations_denied (db : Db) (articleId : String)
    (dto : UpdateArticleDto) (uid : String) (a : Article)
    (hfind : db.articles.find? (fun x => x.id == articleId) = some a)
    (hne : a.authorId ≠ uid) :
    updateArticle db articleId dto UserRole.AUTHOR uid =
      (ServiceResponse.fail "Access denied: You cannot update this article", db)
  ∧ (a.isDeleted = false →
      softDeleteArticle db articleId UserRole.AUTHOR uid =
        (ServiceResponse.fail "Access denied: You cannot delete this article", db))
  ∧ (a.isDeleted = true →
      softDeleteArticle db articleId UserRole.AUTHOR uid =
        (ServiceResponse.fail "Article is already deleted", db)) := by
  have hcm := canModify_author_nonowner a uid hne
  refine ⟨?_, ?_, ?_⟩
  · simp [updateArticle, hfind, hcm]
  · intro hdel; simp [softDeleteArticle, hfind, hdel, hcm]
  · intro hdel; simp [softDeleteArticle, hfind, hdel]

/-- Witness for the amended C2 at a concrete non-owner AUTHOR caller. -/
theorem authorNonOwner_mutations_denied_witness :
    updateArticle exDb "a1" {} UserRole.AUTHOR "bob" =
      (ServiceResponse.fail "Access denied: You cannot update this article", exDb)
  ∧ softDeleteArticle exDb "a1" UserRole.AUTHOR "bob" =
      (ServiceResponse.fail "Article is already deleted", exDb) :=
  ⟨(authorNonOwner_mutations_denied exDb "a1" {} "bob" exDeletedArticle rfl (by decide)).1,
   (authorNonOwner_mutations_denied exDb "a1" {} "bob" exDeletedArticle rfl (by decide)).2.2 rfl⟩

/-! ## Claim C10 -/

/-- Claim C10: for the public by-slug lookup, a slug that matches no
article and a slug whose article exists but is hidden from the caller by
the visibility policy produce the same generic not-found failure — the two
cases are indistinguishable in the response. -/
theorem getArticleBySlug_notFound_indistinguishable
    (db1 : List Article) (s1 : String) (db2 : List Article) (s2 : String)
    (h1 : ∀ a ∈ db1, a.slug ≠ s1)
    (_hex : ∃ a ∈ db2, a.slug = s2)
    (h2 : ∀ a ∈ db2, a.slug = s2 → applyVisibilityRules UserRole.USER none false a = false) :
    controllerGetArticleBySlug db1 s1 = ServiceResponse.fail "Article not found or access denied"
  ∧ controllerGetArticleBySlug db2 s2 = ServiceResponse.fail "Article not found or access denied"
  ∧ controllerGetArticleBySlug db1 s1 = controllerGetArticleBySlug db2 s2 := by
  have e1 : db1.filter (fun a =>
      a.slug == s1 && applyVisibilityRules UserRole.USER none false a) = [] := by
    rw [List.filter_eq_nil_iff]
    intro a ha
    simp [h1 a ha]
  have e2 : db2.filter (fun a =>
      a.slug == s2 && applyVisibilityRules UserRole.USER none false a) = [] := by
    rw [List.filter_eq_nil_iff]
    intro a ha
    by_cases hs : a.slug = s2
    · simp [hs, h2 a ha hs]
    · simp [hs]
  refine ⟨?_, ?_, ?_⟩
  · simp [controllerGetArticleBySlug, getArticleBySlug, e1]
  · simp [controllerGetArticleBySlug, getArticleBySlug, e2]
  · simp [controllerGetArticleBySlug, getArticleBySlug, e1, e2]

/-- Witness for C10: an empty table with an unknown slug versus a table
whose only article carries the requested slug but is soft-deleted (hence
hidden from the public USER-role lookup). -/
theorem getArticleBySlug_notFound_indistinguishable_witness :
    controllerGetArticleBySlug [] "nope" =
      ServiceResponse.fail "Article not found or access denied"
  ∧ controllerGetArticleBySlug [exDeletedArticle] "s" =
      ServiceResponse.fail "Article not found or access denied"
  ∧ controllerGetArticleBySlug [] "nope" = controllerGetArticleBySlug [exDeletedArticle] "s" :=
  getArticleBySlug_notFound_indistinguishable [] "nope" [exDeletedArticle] "s"
    (by decide) (by decide) (by decide)

/-! ## Claim C3 -/

/-- Claim C3: the comment tree assembler indexes all comments by id; a
comment whose parent reference is null or does not resolve to an indexed
comment becomes a root (promoted, not dropped), every other comment becomes
a child of its resolved parent, and root order and every sibling group's
order equal the input order with no re-sorting.  The first conjunct is the
specification example `[{1,null},{2,1},{3,1},{4,2}]`; the two `Sublist`
conjuncts state that the root sequence and each sibling sequence are
subsequences of the input (order preserved, never re-sorted). -/
theorem buildCommentTree_assembles_in_input_order :
    buildCommentTree exFlatComments =
      [CommentNode.node "1" "c1" 1
        [CommentNode.node "2" "c2" 2 [CommentNode.node "4" "c4" 4 []],
         CommentNode.node "3" "c3" 3 []]]
  ∧ (∀ l : List CommentRec,
       ((buildCommentTree l).map CommentNode.id).Sublist (l.map CommentRec.id))
  ∧ (∀ (l : List CommentRec) (pid : String),
       ((childrenOf l pid).map CommentRec.id).Sublist (l.map CommentRec.id))
  ∧ (∀ (l : List CommentRec) (fuel : Nat) (c : CommentRec),
       ((buildNode l (fuel + 1) c).children).map CommentNode.id
         = (childrenOf l c.id).map CommentRec.id)
  ∧ (∀ (l : List CommentRec) (c : CommentRec), c ∈ l → c.parentCommentId = none →
       c.id ∈ (buildCommentTree l).map CommentNode.id)
  ∧ (∀ (l : List CommentRec) (c : CommentRec) (p : String), c ∈ l →
       c.parentCommentId = some p → (∀ d ∈ l, d.id ≠ p) →
       c.id ∈ (buildCommentTree l).map CommentNode.id)
  ∧ (∀ (l : List CommentRec) (c parent : CommentRec) (p : String), c ∈ l →
       c.parentCommentId = some p → p ≠ "" → parent.id = p →
       c ∈ childrenOf l parent.id) := by
  refine ⟨rfl, ?_, ?_, ?_, ?_, ?_, ?_⟩
  · intro l
    rw [buildCommentTree_map_id]
    exact (List.filter_sublist l).map CommentRec.id
  · intro l pid
    exact (List.filter_sublist l).map CommentRec.id
  · intro l fuel c
    show ((childrenOf l c.id).map (fun d => buildNode l fuel d)).map CommentNode.id
        = (childrenOf l c.id).map CommentRec.id
    rw [List.map_map]
    exact List.map_congr_left (fun d _ => buildNode_id l fuel d)
  · intro l c hc hp
    exact mem_rootIds_of_jsIsRoot l c hc (jsIsRoot_of_none l c hp)
  · intro l c p hc hp hnone
    exact mem_rootIds_of_jsIsRoot l c hc (jsIsRoot_of_unresolved l c p hp hnone)
  · intro l c parent p hc hp hne hpid
    refine List.mem_filter.mpr ⟨hc, ?_⟩
    rw [hp, hpid]
    simp [hne]

/-- Witness for C3: a concrete comment whose parent id `zz` resolves to no
stored comment is promoted to a root. -/
theorem buildCommentTree_assembles_in_input_order_witness :
    exOrphanComment.id ∈ (buildCommentTree [exOrphanComment]).map CommentNode.id :=
  buildCommentTree_assembles_in_input_order.2.2.2.2.2.1 [exOrphanComment] exOrphanComment "zz"
    (by decide) rfl (by decide)

/-! ## Claim C9 -/

/-- Counterexample to claim C9 as stated: the aggregate mapper's tag filter
checks only that the `tag` relation is loaded (`filter((at) => at.tag)`),
not its `isDeleted` flag; an article whose stale join row references the
soft-deleted tag `exStaleTag` is mapped to a DTO whose tag list contains
that tag. -/
theorem mapper_includes_softDeleted_tag :
    exStaleTag.isDeleted = true
  ∧ exArticleStaleTag.articleTags = [{ articleId := "a2", tagId := "t1", tag := some exStaleTag }]
  ∧ (mapToArticleResponseDto exArticleStaleTag).tags =
      [{ id := "t1", name := "Old", slug := "old", createdAt := 3 }] :=
  ⟨rfl, rfl, rfl⟩

/-- Claim C9 (amended): the aggregate mapper tolerates partially-populated
relations — an absent author maps to `none` and an author with no profile
yields a `none` profile field, never an error — and its tag list is built
from exactly the join rows whose `tag` relation is loaded: every loaded
tag is included (regardless of its `isDeleted` flag, which the mapper does
not consult), and only join rows with no loaded tag are dropped. -/
theorem mapper_partial_relations_amended :
    (∀ (article : Article) (u : AuthorRow), article.author = some u → u.profile = none →
        (mapToArticleResponseDto article).author =
          some { id := u.id, username := u.username, profile := none })
  ∧ (∀ article : Article, article.author = none →
        (mapToArticleResponseDto article).author = none)
  ∧ (∀ (article : Article) (row : JoinedArticleTag) (t : Tag),
        row ∈ article.articleTags → row.tag = some t →
        ({ id := t.id, name := t.name, slug := t.slug, createdAt := t.createdAt } : TagResponseDto)
          ∈ (mapToArticleResponseDto article).tags)
  ∧ (∀ (article : Article) (td : TagResponseDto), td ∈ (mapToArticleResponseDto article).tags →
        ∃ row ∈ article.articleTags, ∃ t : Tag, row.tag = some t
          ∧ td = { id := t.id, name := t.name, slug := t.slug, createdAt := t.createdAt }) := by
  refine ⟨?_, ?_, ?_, ?_⟩
  · intro article u hu hp
    simp [mapToArticleResponseDto, hu, hp]
  · intro article hu
    simp [mapToArticleResponseDto, hu]
  · intro article row t hrow ht
    have hne : article.articleTags.isEmpty = false := by
      cases h : article.articleTags
      · rw [h] at hrow
        exact absurd hrow (List.not_mem_nil _)
      · rfl
    simp only [mapToArticleResponseDto, hne, Bool.false_eq_true, if_false]
    exact List.mem_filterMap.mpr ⟨row, hrow, by rw [ht]; rfl⟩
  · intro article td htd
    cases h : article.articleTags.isEmpty
    · simp only [mapToArticleResponseDto, h, Bool.false_eq_true, if_false] at htd
      obtain ⟨row, hrow, hmap⟩ := List.mem_filterMap.mp htd
      obtain ⟨t, ht, htd'⟩ := Option.map_eq_some'.mp hmap
      exact ⟨row, hrow, t, ht, htd'.symm⟩
    · simp only [mapToArticleResponseDto, h, if_true] at htd
      exact absurd htd (List.not_mem_nil _)

/-- Witness for the amended C9: an author aggregate with no profile maps to
a null profile, and the concrete soft-deleted joined tag is included in the
tag list. -/
theorem mapper_partial_relations_amended_witness :
    (mapToArticleResponseDto
        { exArticleStaleTag with
          author := some { id := "alice", username := "alice", profile := none } }).author =
      some { id := "alice", username := "alice", profile := none }
  ∧ ({ id := "t1", name := "Old", slug := "old", createdAt := 3 } : TagResponseDto)
      ∈ (mapToArticleResponseDto exArticleStaleTag).tags :=
  ⟨mapper_partial_relations_amended.1
      { exArticleStaleTag with
        author := some { id := "alice", username := "alice", profile := none } }
      { id := "alice", username := "alice", profile := none } rfl rfl,
   mapper_partial_relations_amended.2.2.1 exArticleStaleTag
      { articleId := "a2", tagId := "t1", tag := some exStaleTag } exStaleTag
      (by decide) rfl⟩

/-! ## Claim C8 -/

theorem mem_forestIds (ns : List CommentNode) (x : String) :
    x ∈ forestIds ns ↔ ∃ n ∈ ns, x ∈ n.selfIds := by
  induction ns with
  | nil => simp [forestIds]
  | cons n rest ih =>
      simp only [forestIds, List.mem_append, ih, List.mem_cons]
      constructor
      · rintro (hx | ⟨m, hm, hxm⟩)
        · exact ⟨n, Or.inl rfl, hx⟩
        · exact ⟨m, Or.inr hm, hxm⟩
      · rintro ⟨m, rfl | hm, hxm⟩
        · exact Or.inl hxm
        · exact Or.inr ⟨m, hm, hxm⟩

theorem selfIds_buildNode_subset (l : List CommentRec) :
    ∀ (fuel : Nat) (c : CommentRec), c ∈ l →
      ∀ x ∈ (buildNode l fuel c).selfIds, x ∈ l.map CommentRec.id := by
  intro fuel
  induction fuel with
  | zero =>
      intro c hc x hx
      simp only [buildNode, CommentNode.selfIds, forestIds] at hx
      rcases List.mem_cons.mp hx with rfl | hx2
      · exact List.mem_map_of_mem _ hc
      · exact absurd hx2 (List.not_mem_nil _)
  | succ fuel ih =>
      intro c hc x hx
      simp only [buildNode, CommentNode.selfIds] at hx
      rcases List.mem_cons.mp hx with rfl | hx2
      · exact List.mem_map_of_mem _ hc
      · rw [mem_forestIds] at hx2
        obtain ⟨n, hn, hxn⟩ := hx2
        obtain ⟨d, hd, rfl⟩ := List.mem_map.mp hn
        exact ih d (List.mem_filter.mp hd).1 x hxn

theorem forestIds_buildCommentTree_subset (l : List CommentRec) :
    ∀ x ∈ forestIds (buildCommentTree l), x ∈ l.map CommentRec.id := by
  intro x hx
  rw [mem_forestIds] at hx
  obtain ⟨n, hn, hxn⟩ := hx
  obtain ⟨c, hc, rfl⟩ := List.mem_map.mp hn
  exact selfIds_buildNode_subset l l.length c (List.mem_filter.mp hc).1 x hxn

/-- Counterexample to claim C8 as stated: `getCommentsByArticle` appends
`comment.isDeleted = false` to the query for every non-admin role, so a
content-redacted (soft-deleted) comment is excluded from a USER's
retrieval — the very same article yields the redacted record for an ADMIN
caller. -/
theorem getComments_excludes_redacted_for_nonprivileged :
    exRedactedComment.isDeleted = true
  ∧ isAdminRole UserRole.USER = false
  ∧ getCommentsByArticle [exRedactedComment] "a1" UserRole.USER = ServiceResponse.ok []
  ∧ getCommentsByArticle [exRedactedComment] "a1" UserRole.ADMIN =
      ServiceResponse.ok [CommentNode.node "cm1" "[deleted]" 1 []] :=
  ⟨rfl, rfl, rfl, rfl⟩

/-- Claim C8 (amended): for a non-privileged caller the comment retrieval
*excludes* soft-deleted comments (they are visible only to admin roles);
the record itself is retained by the soft delete — `softDeleteComment`
keeps the row, marking it deleted with the `'[deleted]'` sentinel content —
and a retained reply whose parent was excluded by the deletion filter is
promoted to a root of the returned tree rather than dropped. -/
theorem comment_redaction_visibility_amended :
    (∀ (l : List CommentRec) (aid : String) (role : UserRole) (c : CommentRec)
        (forest : List CommentNode),
        isAdminRole role = false → (l.map CommentRec.id).Nodup → c ∈ l → c.isDeleted = true →
        getCommentsByArticle l aid role = ServiceResponse.ok forest →
        c.id ∉ forestIds forest)
  ∧ (∀ (l : List CommentRec) (cid uid : String) (role : UserRole) (c : CommentRec),
        l.find? (fun d => d.id == cid) = some c →
        (c.userId == uid || isAdminRole role) = true →
        (softDeleteComment l cid uid role).1 = ServiceResponse.ok ()
        ∧ ((softDeleteComment l cid uid role).2).length = l.length
        ∧ ∃ d ∈ (softDeleteComment l cid uid role).2,
            d.id = c.id ∧ d.isDeleted = true ∧ d.content = "[deleted]")
  ∧ (∀ (l : List CommentRec) (aid : String) (role : UserRole) (c : CommentRec) (p : String)
        (forest : List CommentNode),
        isAdminRole role = false → c ∈ l → c.articleId = aid → c.isDeleted = false →
        c.parentCommentId = some p → (∀ d ∈ l, d.id = p → d.isDeleted = true) →
        getCommentsByArticle l aid role = ServiceResponse.ok forest →
        c.id ∈ forest.map CommentNode.id) := by
  refine ⟨?_, ?_, ?_⟩
  · intro l aid role c forest hrole hnodup hc hdel hres hmem
    simp only [getCommentsByArticle, hrole, Bool.false_eq_true, if_false,
      ServiceResponse.ok.injEq] at hres
    subst hres
    have hx := forestIds_buildCommentTree_subset _ _ hmem
    obtain ⟨d, hd, hid⟩ := List.mem_map.mp hx
    have hd1 : d ∈ (l.filter (fun c => c.articleId == aid)).filter (fun c => !c.isDeleted) :=
      ((List.perm_insertionSort _ _).mem_iff).mp hd
    have hd2 := List.mem_filter.mp hd1
    have hdl : d ∈ l := (List.mem_filter.mp hd2.1).1
    have : d = c := List.inj_on_of_nodup_map hnodup hdl hc hid
    subst this
    rw [hdel] at hd2
    simp at hd2
  · intro l cid uid role c hfind hauth
    cases hsent : c.isDeleted && (c.content == "[deleted]")
    · refine ⟨by simp [softDeleteComment, hfind, hauth, hsent], ?_, ?_⟩
      · simp [softDeleteComment, hfind, hauth, hsent]
      · simp only [softDeleteComment, hfind, hauth, Bool.not_true, Bool.false_eq_true,
          if_false, hsent]
        refine ⟨{ c with isDeleted := true, content := "[deleted]", updatedById := some uid }, ?_, rfl, rfl, rfl⟩
        have hcl : c ∈ l := List.mem_of_find?_eq_some hfind
        have := List.mem_map_of_mem (fun d =>
          if d.id == c.id then
            { d with isDeleted := true, content := "[deleted]", updatedById := some uid }
          else d) hcl
        simpa using this
    · have hsd : c.isDeleted = true := (Bool.and_eq_true _ _ ▸ hsent).1
      have hct : c.content = "[deleted]" := by
        have := (Bool.and_eq_true _ _ ▸ hsent).2
        simpa using this
      refine ⟨by simp [softDeleteComment, hfind, hauth, hsent], ?_, ?_⟩
      · simp [softDeleteComment, hfind, hauth, hsent]
      · simp only [softDeleteComment, hfind, hauth, Bool.not_true, Bool.false_eq_true,
          if_false, hsent]
        exact ⟨c, List.mem_of_find?_eq_some hfind, rfl, hsd, hct⟩
  · intro l aid role c p forest hrole hc haid hdel hp hparents hres
    simp only [getCommentsByArticle, hrole, Bool.false_eq_true, if_false,
      ServiceResponse.ok.injEq] at hres
    subst hres
    set m := List.insertionSort (fun a b => a.createdAt ≤ b.createdAt)
      ((l.filter (fun c => c.articleId == aid)).filter (fun c => !c.isDeleted)) with hm
    have hcm : c ∈ m := by
      rw [hm, (List.perm_insertionSort _ _).mem_iff]
      exact List.mem_filter.mpr ⟨List.mem_filter.mpr ⟨hc, by simp [haid]⟩, by simp [hdel]⟩
    have hroot : jsIsRoot m c = true := by
      refine jsIsRoot_of_unresolved m c p hp ?_
      intro d hd hdp
      have hd1 : d ∈ (l.filter (fun c => c.articleId == aid)).filter (fun c => !c.isDeleted) := by
        rw [hm, (List.perm_insertionSort _ _).mem_iff] at hd
        exact hd
      have hd2 := List.mem_filter.mp hd1
      have hdl : d ∈ l := (List.mem_filter.mp hd2.1).1
      have : d.isDeleted = true := hparents d hdl hdp
      rw [this] at hd2
      simp at hd2
    exact mem_rootIds_of_jsIsRoot m c hcm hroot

/-- Witness for the amended C8: soft-deleting a concrete comment by its
owner succeeds and retains the record with the sentinel content. -/
theorem comment_redaction_visibility_amended_witness :
    (softDeleteComment [exOrphanComment] "cm2" "u2" UserRole.USER).1 = ServiceResponse.ok ()
  ∧ ((softDeleteComment [exOrphanComment] "cm2" "u2" UserRole.USER).2).length =
      ([exOrphanComment] : List CommentRec).length
  ∧ ∃ d ∈ (softDeleteComment [exOrphanComment] "cm2" "u2" UserRole.USER).2,
      d.id = exOrphanComment.id ∧ d.isDeleted = true ∧ d.content = "[deleted]" :=
  comment_redaction_visibility_amended.2.1 [exOrphanComment] "cm2" "u2" UserRole.USER
    exOrphanComment (by decide) (by decide)

/-! ## Claim C4 -/

theorem mem_syncExisting (rows : List ArticleTagRow) (aid : String) (r : ArticleTagRow) :
    r ∈ syncExisting rows aid ↔ r ∈ rows ∧ r.articleId = aid := by
  simp [syncExisting]

theorem mem_syncToRemove (rows : List ArticleTagRow) (aid : String) (ids : List String)
    (r : ArticleTagRow) :
    r ∈ syncToRemove rows aid ids ↔ r ∈ rows ∧ r.articleId = aid ∧ r.tagId ∉ ids := by
  simp [syncToRemove, syncExisting, List.mem_filter, and_assoc]
  tauto

theorem mem_syncToAdd (rows : List ArticleTagRow) (aid : String) (ids : List String)
    (t : String) :
    t ∈ syncToAdd rows aid ids ↔
      t ∈ ids ∧ ∀ r ∈ rows, r.articleId = aid → r.tagId ≠ t := by
  simp only [syncToAdd, List.mem_filter, Bool.not_eq_true', decide_eq_false_iff_not]
  constructor
  · rintro ⟨ht, hno⟩
    refine ⟨ht, fun r hr haid htag => hno ?_⟩
    rw [List.mem_map]
    exact ⟨r, (mem_syncExisting rows aid r).mpr ⟨hr, haid⟩, htag⟩
  · rintro ⟨ht, hall⟩
    refine ⟨ht, fun hmem => ?_⟩
    rw [List.mem_map] at hmem
    obtain ⟨r, hr, htag⟩ := hmem
    obtain ⟨hr1, hr2⟩ := (mem_syncExisting rows aid r).mp hr
    exact hall r hr1 hr2 htag

theorem mem_sync_fst (rows : List ArticleTagRow) (aid : String) (ids : List String)
    (uid : String) (r : ArticleTagRow) :
    r ∈ (syncArticleTags rows aid ids uid).1 ↔
      (r ∈ rows ∧ ¬(r.articleId = aid ∧ r.tagId ∉ ids))
      ∨ ∃ t ∈ syncToAdd rows aid ids,
          r = { articleId := aid, tagId := t, createdById := some uid } := by
  simp only [syncArticleTags, syncAdditions, List.mem_append, List.mem_filter,
    Bool.not_eq_true', decide_eq_false_iff_not, mem_syncToRemove, List.mem_map]
  constructor
  · rintro (⟨hr, hno⟩ | ⟨t, ht, rfl⟩)
    · exact Or.inl ⟨hr, fun ⟨haid, hnin⟩ => hno ⟨hr, haid, hnin⟩⟩
    · exact Or.inr ⟨t, ht, rfl⟩
  · rintro (⟨hr, hno⟩ | ⟨t, ht, rfl⟩)
    · exact Or.inl ⟨hr, fun ⟨_, haid, hnin⟩ => hno ⟨haid, hnin⟩⟩
    · exact Or.inr ⟨t, ht, rfl⟩

theorem sync_second_call_noop (rows : List ArticleTagRow) (aid : String)
    (ids : List String) (uid uid2 : String) :
    syncToAdd (syncArticleTags rows aid ids uid).1 aid ids = []
  ∧ syncToRemove (syncArticleTags rows aid ids uid).1 aid ids = []
  ∧ (syncArticleTags (syncArticleTags rows aid ids uid).1 aid ids uid2).1
      = (syncArticleTags rows aid ids uid).1 := by
  have hA : syncToAdd (syncArticleTags rows aid ids uid).1 aid ids = [] := by
    rw [List.eq_nil_iff_forall_not_mem]
    intro t ht
    rw [mem_syncToAdd] at ht
    obtain ⟨htids, hall⟩ := ht
    by_cases hex : ∃ r ∈ rows, r.articleId = aid ∧ r.tagId = t
    · obtain ⟨r, hr, haid, htag⟩ := hex
      have hmem : r ∈ (syncArticleTags rows aid ids uid).1 :=
        (mem_sync_fst rows aid ids uid r).mpr
          (Or.inl ⟨hr, fun h => h.2 (htag ▸ htids)⟩)
      exact hall r hmem haid htag
    · have hadd : t ∈ syncToAdd rows aid ids :=
        (mem_syncToAdd rows aid ids t).mpr
          ⟨htids, fun r hr haid htag => hex ⟨r, hr, haid, htag⟩⟩
      have hmem : ({ articleId := aid, tagId := t, createdById := some uid } : ArticleTagRow)
          ∈ (syncArticleTags rows aid ids uid).1 :=
        (mem_sync_fst rows aid ids uid _).mpr (Or.inr ⟨t, hadd, rfl⟩)
      exact hall _ hmem rfl rfl
  have hR : syncToRemove (syncArticleTags rows aid ids uid).1 aid ids = [] := by
    rw [List.eq_nil_iff_forall_not_mem]
    intro r hr
    rw [mem_syncToRemove] at hr
    obtain ⟨hr1, hr2, hr3⟩ := hr
    rcases (mem_sync_fst rows aid ids uid r).mp hr1 with ⟨_, hno⟩ | ⟨t, ht, rfl⟩
    · exact hno ⟨hr2, hr3⟩
    · exact hr3 ((mem_syncToAdd rows aid ids t).mp ht).1
  refine ⟨hA, hR, ?_⟩
  have h1 : ((syncArticleTags rows aid ids uid).1).filter
      (fun r => !(decide (r ∈ syncToRemove (syncArticleTags rows aid ids uid).1 aid ids)))
      = (syncArticleTags rows aid ids uid).1 := by
    rw [List.filter_eq_self]
    intro a _
    simp [hR]
  show ((syncArticleTags rows aid ids uid).1).filter _
      ++ syncAdditions (syncArticleTags rows aid ids uid).1 aid ids uid2
      = (syncArticleTags rows aid ids uid).1
  rw [h1, syncAdditions, hA]
  simp

theorem dedupKeepFirstGo_spec : ∀ (l seen : List String),
    (dedupKeepFirstGo seen l).Nodup ∧ ∀ x ∈ dedupKeepFirstGo seen l, x ∉ seen := by
  intro l
  induction l with
  | nil => intro seen; simp [dedupKeepFirstGo]
  | cons a rest ih =>
      intro seen
      by_cases ha : a ∈ seen
      · simpa [dedupKeepFirstGo, ha] using ih seen
      · simp only [dedupKeepFirstGo, ha, decide_False, Bool.false_eq_true, if_false]
        obtain ⟨hnd, hout⟩ := ih (a :: seen)
        refine ⟨List.nodup_cons.mpr ⟨fun hmem => ?_, hnd⟩, ?_⟩
        · exact hout a hmem (List.mem_cons_self a seen)
        · intro x hx
          rcases List.mem_cons.mp hx with rfl | hx2
          · exact ha
          · intro hxs
            exact hout x hx2 (List.mem_cons_of_mem a hxs)

theorem normalizeTagIds_nodup (raw : Option (List String)) :
    (normalizeTagIds raw).Nodup := by
  cases raw with
  | none => simp [normalizeTagIds]
  | some l =>
      simp only [normalizeTagIds]
      split
      · exact List.nodup_nil
      · exact (dedupKeepFirstGo_spec _ []).1

/-- Claim C4: tag synchronization first de-duplicates the desired set
(`normalizeTagIds` output has no duplicates), then removes exactly the
associations in current-minus-desired and inserts exactly those in
desired-minus-current, leaving associations in both (and other articles'
rows) untouched; a second call with the same desired set performs zero
writes and leaves the association rows identical. -/
theorem syncArticleTags_idempotent_delta :
    (∀ raw : Option (List String), (normalizeTagIds raw).Nodup)
  ∧ (∀ (rows : List ArticleTagRow) (aid uid uid2 : String) (raw : Option (List String)),
      (syncArticleTags (syncArticleTags rows aid (normalizeTagIds raw) uid).1
          aid (normalizeTagIds raw) uid2).1
        = (syncArticleTags rows aid (normalizeTagIds raw) uid).1
      ∧ (syncArticleTags (syncArticleTags rows aid (normalizeTagIds raw) uid).1
          aid (normalizeTagIds raw) uid2).2
        = { removed := [], added := [] })
  ∧ (∀ (rows : List ArticleTagRow) (aid : String) (ids : List String) (uid : String)
        (r : ArticleTagRow), r ∈ rows → r.articleId = aid →
        (r ∈ (syncArticleTags rows aid ids uid).1 ↔ r.tagId ∈ ids))
  ∧ (∀ (rows : List ArticleTagRow) (aid : String) (ids : List String) (uid : String)
        (r : ArticleTagRow), r ∈ rows → r.articleId ≠ aid →
        r ∈ (syncArticleTags rows aid ids uid).1)
  ∧ (∀ (rows : List ArticleTagRow) (aid : String) (ids : List String) (uid : String)
        (r : ArticleTagRow),
        r ∈ (syncArticleTags rows aid ids uid).2.removed ↔
          r ∈ rows ∧ r.articleId = aid ∧ r.tagId ∉ ids)
  ∧ (∀ (rows : List ArticleTagRow) (aid : String) (ids : List String) (uid : String)
        (t : String), t ∈ ids → (∀ r ∈ rows, r.articleId = aid → r.tagId ≠ t) →
        ({ articleId := aid, tagId := t, createdById := some uid } : ArticleTagRow)
          ∈ (syncArticleTags rows aid ids uid).1) := by
  refine ⟨normalizeTagIds_nodup, ?_, ?_, ?_, ?_, ?_⟩
  · intro rows aid uid uid2 raw
    obtain ⟨hA, hR, hres⟩ := sync_second_call_noop rows aid (normalizeTagIds raw) uid uid2
    refine ⟨hres, ?_⟩
    show (⟨syncToRemove _ _ _, syncAdditions _ _ _ _⟩ : SyncWrites) = _
    rw [syncAdditions, hA, hR]
    rfl
  · intro rows aid ids uid r hr haid
    constructor
    · intro hmem
      rcases (mem_sync_fst rows aid ids uid r).mp hmem with ⟨_, hno⟩ | ⟨t, ht, rfl⟩
      · by_contra hnin
        exact hno ⟨haid, hnin⟩
      · exact ((mem_syncToAdd rows aid ids t).mp ht).1
    · intro hin
      exact (mem_sync_fst rows aid ids uid r).mpr (Or.inl ⟨hr, fun h => h.2 hin⟩)
  · intro rows aid ids uid r hr haid
    exact (mem_sync_fst rows aid ids uid r).mpr (Or.inl ⟨hr, fun h => haid h.1⟩)
  · intro rows aid ids uid r
    exact mem_syncToRemove rows aid ids r
  · intro rows aid ids uid t ht hno
    exact (mem_sync_fst rows aid ids uid _).mpr
      (Or.inr ⟨t, (mem_syncToAdd rows aid ids t).mpr ⟨ht, hno⟩, rfl⟩)

/-- Witness for C4 at a concrete association table and desired set. -/
theorem syncArticleTags_idempotent_delta_witness :
    (syncArticleTags
        (syncArticleTags [{ articleId := "a1", tagId := "t1", createdById := none }]
          "a1" (normalizeTagIds (some ["t2", "t3", "t2"])) "u").1
        "a1" (normalizeTagIds (some ["t2", "t3", "t2"])) "v").1
      = (syncArticleTags [{ articleId := "a1", tagId := "t1", createdById := none }]
          "a1" (normalizeTagIds (some ["t2", "t3", "t2"])) "u").1
  ∧ ({ articleId := "a1", tagId := "t2", createdById := some "u" } : ArticleTagRow)
      ∈ (syncArticleTags [{ articleId := "a1", tagId := "t1", createdById := none }]
          "a1" (normalizeTagIds (some ["t2", "t3", "t2"])) "u").1 :=
  ⟨(syncArticleTags_idempotent_delta.2.1
      [{ articleId := "a1", tagId := "t1", createdById := none }] "a1" "u" "v"
      (some ["t2", "t3", "t2"])).1,
   syncArticleTags_idempotent_delta.2.2.2.2.2
      [{ articleId := "a1", tagId := "t1", createdById := none }] "a1"
      (normalizeTagIds (some ["t2", "t3", "t2"])) "u" "t2" (by decide) (by decide)⟩

/-! ## Claim C5 -/

theorem validateTagIds_fail (tags : List Tag) (ids : List String)
    (hnodup : (tags.map Tag.id).Nodup) (t : String) (ht : t ∈ ids)
    (hbad : ∀ tg ∈ tags, tg.id = t → tg.isDeleted = true) :
    ∃ msg, validateTagIds tags ids = ServiceResponse.fail msg := by
  have hne : ids.isEmpty = false := by
    cases ids
    · cases ht
    · rfl
  have hsub : ((tags.filter (fun tg => decide (tg.id ∈ ids) && !tg.isDeleted)).map Tag.id)
      ⊆ ids.erase t := by
    intro x hx
    obtain ⟨tg, htg, rfl⟩ := List.mem_map.mp hx
    have h2 := List.mem_filter.mp htg
    have h3 : tg.id ∈ ids ∧ tg.isDeleted = false := by
      have h2b := h2.2
      simp only [Bool.and_eq_true, decide_eq_true_eq, Bool.not_eq_true'] at h2b
      exact h2b
    have hneq : tg.id ≠ t := by
      intro he
      rw [hbad tg h2.1 he] at h3
      exact absurd h3.2 (by simp)
    exact (List.mem_erase_of_ne hneq).mpr h3.1
  have hnd : ((tags.filter (fun tg => decide (tg.id ∈ ids) && !tg.isDeleted)).map Tag.id).Nodup :=
    List.Sublist.nodup (List.Sublist.map Tag.id (List.filter_sublist tags)) hnodup
  have hlen : (tags.filter (fun tg => decide (tg.id ∈ ids) && !tg.isDeleted)).length
      < ids.length := by
    have h1 := (hnd.subperm hsub).length_le
    rw [List.length_map] at h1
    have h2 : (ids.erase t).length = ids.length - 1 := List.length_erase_of_mem ht
    have h3 : 0 < ids.length := List.length_pos.mpr (by rintro rfl; cases ht)
    omega
  have hbne : ((tags.filter (fun tg => decide (tg.id ∈ ids) && !tg.isDeleted)).length
      != ids.length) = true := by
    simp [Nat.ne_of_lt hlen]
  cases hv : validateTagIds tags ids with
  | fail msg => exact ⟨msg, rfl⟩
  | ok u =>
      exfalso
      unfold validateTagIds at hv
      rw [hne] at hv
      simp only [Bool.false_eq_true, if_false] at hv
      split at hv
      · exact ServiceResponse.noConfusion hv
      · next h => exact h hbne

/-- Claim C5: if the desired tag-id set passed to article update or create
contains an id that does not resolve to a live (stored, non-deleted) tag,
the operation returns the validation failure before any write: the
returned storage state — articles and tag associations alike — is exactly
the input state. -/
theorem tagValidation_blocks_writes :
    (∀ (db : Db) (articleId : String) (dto : UpdateArticleDto) (role : UserRole)
        (uid : String) (a : Article) (raw : List String) (t : String),
        db.articles.find? (fun x => x.id == articleId) = some a →
        canModifyArticle a role uid = true →
        dto.tagIds = some raw →
        (db.tags.map Tag.id).Nodup →
        t ∈ normalizeTagIds (some raw) →
        (∀ tg ∈ db.tags, tg.id = t → tg.isDeleted = true) →
        ∃ msg, validateTagIds db.tags (normalizeTagIds (some raw)) = ServiceResponse.fail msg
          ∧ updateArticle db articleId dto role uid = (ServiceResponse.fail msg, db))
  ∧ (∀ (db : Db) (dto : CreateArticleDto) (authorId newId : String) (now : Nat)
        (u : UserRow) (raw : List String) (t : String),
        db.users.find? (fun x => x.id == authorId) = some u →
        u.isDeleted = false →
        createCategoryCheck db dto = ServiceResponse.ok () →
        dto.tagIds = some raw →
        (db.tags.map Tag.id).Nodup →
        t ∈ normalizeTagIds (some raw) →
        (∀ tg ∈ db.tags, tg.id = t → tg.isDeleted = true) →
        ∃ msg, createArticle db dto authorId newId now = (ServiceResponse.fail msg, db)) := by
  constructor
  · intro db articleId dto role uid a raw t hfind hcan htag hnodup ht hbad
    obtain ⟨msg, hval⟩ := validateTagIds_fail db.tags _ hnodup t ht hbad
    refine ⟨msg, hval, ?_⟩
    simp [updateArticle, hfind, hcan, htag, hval]
  · intro db dto authorId newId now u raw t hfindu hudel hcat htag hnodup ht hbad
    obtain ⟨msg, hval⟩ := validateTagIds_fail db.tags _ hnodup t ht hbad
    refine ⟨msg, ?_⟩
    simp [createArticle, hfindu, hudel, hcat, htag, hval]

/-- Witness for C5: updating the concrete article `a3` (owned and edited by
`alice`) with the desired set `{t1}`, where `t1` is the soft-deleted
`exStaleTag`, fails validation and leaves the storage state unchanged. -/
theorem tagValidation_blocks_writes_witness :
    ∃ msg, validateTagIds exTagDb.tags (normalizeTagIds (some ["t1"]))
        = ServiceResponse.fail msg
      ∧ updateArticle exTagDb "a3" { tagIds := some ["t1"] } UserRole.AUTHOR "alice"
        = (ServiceResponse.fail msg, exTagDb) :=
  tagValidation_blocks_writes.1 exTagDb "a3" { tagIds := some ["t1"] } UserRole.AUTHOR "alice"
    exLiveArticle ["t1"] "t1" (by decide) (by decide) rfl (by decide) (by decide) (by decide)

/-! ## Claim C7 -/

/-- Claim C7: for every call to `getPagedArticles` the effective page size
is clamped to the upper bound 20 regardless of the requested value (so at
most 20 items come back), and a requested page below 1 returns the same
items as page 1 (the negative `OFFSET` is clamped to zero by the storage
layer). -/
theorem getPagedArticles_pageSize_clamped (db : List Article) (p : PagedParams) :
    (pagedItems db p).length ≤ 20
  ∧ (∀ r, getPagedArticles db p = ServiceResponse.ok r → r.pageSize = min p.pageSize 20)
  ∧ (p.page < 1 → pagedItems db p = pagedItems db { p with page := 1 }) := by
  refine ⟨?_, ?_, ?_⟩
  · rw [pagedItems_eq, List.length_map]
    have h1 : (min p.pageSize 20).toNat ≤ 20 :=
      Int.toNat_le_toNat (min_le_right p.pageSize 20)
    have h3 := List.length_take_le (min p.pageSize 20).toNat
      ((sortArticles p.isAscending (db.filter (pagedFilter p))).drop
        ((p.page - 1) * min p.pageSize 20).toNat)
    omega
  · intro r hr
    simp only [getPagedArticles, ServiceResponse.ok.injEq] at hr
    rw [← hr]
  · intro hp
    have h1 : pagedItems db { p with page := 1 } =
        (((sortArticles p.isAscending (db.filter (pagedFilter p))).drop
            (((1 : Int) - 1) * min p.pageSize 20).toNat).take
          (min p.pageSize 20).toNat).map mapToArticleResponseDto := rfl
    rw [pagedItems_eq, h1]
    rcases le_or_lt 0 (min p.pageSize 20) with hps | hps
    · have hskip : (p.page - 1) * min p.pageSize 20 ≤ 0 :=
        mul_nonpos_iff.mpr (Or.inr ⟨by omega, hps⟩)
      rw [Int.toNat_eq_zero.mpr hskip]
      norm_num
    · have ht : (min p.pageSize 20).toNat = 0 :=
        Int.toNat_eq_zero.mpr (le_of_lt hps)
      rw [ht]
      simp

/-- Witness for C7: a request of `pageSize = 1000` on a concrete table
returns at most 20 items, and page 0 returns the items of page 1. -/
theorem getPagedArticles_pageSize_clamped_witness :
    (pagedItems exPagedDb { requesterRole := UserRole.USER, pageSize := 1000, page := 0 }).length ≤ 20
  ∧ pagedItems exPagedDb { requesterRole := UserRole.USER, pageSize := 1000, page := 0 }
      = pagedItems exPagedDb
          { ({ requesterRole := UserRole.USER, pageSize := 1000, page := 0 } : PagedParams) with
            page := 1 } :=
  ⟨(getPagedArticles_pageSize_clamped exPagedDb
      { requesterRole := UserRole.USER, pageSize := 1000, page := 0 }).1,
   (getPagedArticles_pageSize_clamped exPagedDb
      { requesterRole := UserRole.USER, pageSize := 1000, page := 0 }).2.2 (by decide)⟩

/-! ## Claim C6 -/

theorem pageWindow_succ (l : List α) (k i : Nat) :
    pageWindow l k (i + 1) = pageWindow (l.drop k) k i := by
  unfold pageWindow
  rw [List.drop_drop]
  congr 2
  ring

theorem flatten_pageWindows (k : Nat) :
    ∀ (n : Nat) (l : List α), l.length ≤ n * k →
      ((List.range n).map (fun i => pageWindow l k i)).flatten = l := by
  intro n
  induction n with
  | zero =>
      intro l hl
      have hnil : l = [] := List.length_eq_zero.mp (Nat.le_antisymm (by simpa using hl) (Nat.zero_le _))
      subst hnil
      rfl
  | succ n ih =>
      intro l hl
      rw [List.range_succ_eq_map, List.map_cons, List.map_map]
      have hcong : (List.range n).map ((fun i => pageWindow l k i) ∘ Nat.succ)
          = (List.range n).map (fun i => pageWindow (l.drop k) k i) :=
        List.map_congr_left (fun i _ => pageWindow_succ l k i)
      rw [hcong, List.flatten_cons]
      have hrest : ((List.range n).map (fun i => pageWindow (l.drop k) k i)).flatten
          = l.drop k := by
        refine ih (l.drop k) ?_
        rw [List.length_drop]
        have hl2 := hl
        rw [Nat.succ_mul] at hl2
        omega
      rw [hrest]
      show (l.drop (0 * k)).take k ++ l.drop k = l
      rw [Nat.zero_mul, List.drop_zero, List.take_append_drop]

theorem sum_length_pageWindows (k : Nat) (n : Nat) (l : List α)
    (hl : l.length ≤ n * k) :
    ((List.range n).map (fun i => (pageWindow l k i).length)).sum = l.length := by
  have h := congrArg List.length (flatten_pageWindows k n l hl)
  rw [List.length_flatten, List.map_map] at h
  exact h

theorem mem_pageWindow_getElem {l : List α} {k i : Nat} {x : α}
    (hx : x ∈ pageWindow l k i) :
    ∃ m, m < k ∧ ∃ h : i * k + m < l.length, l[i * k + m] = x := by
  unfold pageWindow at hx
  obtain ⟨m, hm, hget⟩ := List.getElem_of_mem hx
  have hmk : m < k := by
    have := hm
    rw [List.length_take] at this
    omega
  rw [List.getElem_take, List.getElem_drop] at hget
  have hlen : i * k + m < l.length := by
    have h2 := hm
    rw [List.length_take, List.length_drop] at h2
    omega
  exact ⟨m, hmk, hlen, hget⟩

theorem pageWindow_disjoint {l : List α} (hl : l.Nodup) (k : Nat) {i j : Nat}
    (hij : i < j) (x : α) (hxi : x ∈ pageWindow l k i) (hxj : x ∈ pageWindow l k j) :
    False := by
  obtain ⟨m1, hm1, h1, hg1⟩ := mem_pageWindow_getElem hxi
  obtain ⟨m2, hm2, h2, hg2⟩ := mem_pageWindow_getElem hxj
  have heq : l[i * k + m1] = l[j * k + m2] := by rw [hg1, hg2]
  have hidx : i * k + m1 = j * k + m2 := (hl.getElem_inj_iff).mp heq
  have h3 : (i + 1) * k ≤ j * k := Nat.mul_le_mul_right k hij
  have h4 : i * k + m1 < (i + 1) * k := by
    rw [Nat.succ_mul]
    omega
  omega

theorem toNat_coe_mul (i : Nat) (m : Int) (hm : 0 ≤ m) :
    ((i : Int) * m).toNat = i * m.toNat := by
  obtain ⟨n, rfl⟩ := Int.eq_ofNat_of_zero_le hm
  rw [← Int.natCast_mul, Int.toNat_natCast, Int.toNat_natCast]

theorem pagedItems_page_succ (db : List Article) (p : PagedParams) (i : Nat)
    (hm : (0 : Int) ≤ min p.pageSize 20) :
    pagedItems db { p with page := ((i + 1 : Nat) : Int) }
      = (pageWindow (sortArticles p.isAscending (db.filter (pagedFilter p)))
          (min p.pageSize 20).toNat i).map mapToArticleResponseDto := by
  have h1 : pagedItems db { p with page := ((i + 1 : Nat) : Int) }
      = (((sortArticles p.isAscending (db.filter (pagedFilter p))).drop
            ((((i + 1 : Nat) : Int) - 1) * min p.pageSize 20).toNat).take
          (min p.pageSize 20).toNat).map mapToArticleResponseDto := rfl
  have h2 : (((i + 1 : Nat) : Int) - 1) * min p.pageSize 20
      = (i : Int) * min p.pageSize 20 := by
    push_cast
    ring
  rw [h1, h2, toNat_coe_mul i _ hm]
  rfl

/-- Claim C6: `getPagedArticles` computes `totalCount` against the
filtered predicate before the page window is applied, so it equals the
number of all matching rows; consequently, for pages wide enough to cover
the matching rows, the item counts across all pages sum to `totalCount`,
and (for a table with distinct article ids) no item appears on two
different pages. -/
theorem getPagedArticles_totalCount_partition (db : List Article) (p : PagedParams)
    (hps : 1 ≤ p.pageSize) (hnodup : (db.map Article.id).Nodup) (n : Nat)
    (hn : (db.filter (pagedFilter p)).length ≤ n * (min p.pageSize 20).toNat) :
    pagedTotalCount db p = (db.filter (pagedFilter p)).length
  ∧ ((List.range n).map (fun i =>
        (pagedItems db { p with page := ((i + 1 : Nat) : Int) }).length)).sum
      = pagedTotalCount db p
  ∧ (∀ (i j : Nat), i ≠ j →
        ∀ d ∈ pagedItems db { p with page := ((i + 1 : Nat) : Int) },
          d ∉ pagedItems db { p with page := ((j + 1 : Nat) : Int) }) := by
  have hm : (0 : Int) ≤ min p.pageSize 20 := le_min (by omega) (by norm_num)
  have hlen : (sortArticles p.isAscending (db.filter (pagedFilter p))).length
      = (db.filter (pagedFilter p)).length :=
    (sortArticles_perm _ _).length_eq
  have hnd : (sortArticles p.isAscending (db.filter (pagedFilter p))).Nodup := by
    have hdbnd : db.Nodup := List.Nodup.of_map _ hnodup
    have hfnd : (db.filter (pagedFilter p)).Nodup := (List.filter_sublist db).nodup hdbnd
    exact ((sortArticles_perm _ _).nodup_iff).mpr hfnd
  refine ⟨rfl, ?_, ?_⟩
  · have heach : ∀ i, (pagedItems db { p with page := ((i + 1 : Nat) : Int) }).length
        = (pageWindow (sortArticles p.isAscending (db.filter (pagedFilter p)))
            (min p.pageSize 20).toNat i).length := by
      intro i
      rw [pagedItems_page_succ db p i hm, List.length_map]
    calc ((List.range n).map (fun i =>
            (pagedItems db { p with page := ((i + 1 : Nat) : Int) }).length)).sum
        = ((List.range n).map (fun i =>
            (pageWindow (sortArticles p.isAscending (db.filter (pagedFilter p)))
              (min p.pageSize 20).toNat i).length)).sum :=
          congrArg List.sum (List.map_congr_left (fun i _ => heach i))
      _ = (sortArticles p.isAscending (db.filter (pagedFilter p))).length :=
          sum_length_pageWindows _ n _ (by rw [hlen]; exact hn)
      _ = pagedTotalCount db p := by rw [hlen, pagedTotalCount_eq]
  · intro i j hij d hdi hdj
    rw [pagedItems_page_succ db p i hm] at hdi
    rw [pagedItems_page_succ db p j hm] at hdj
    obtain ⟨a, ha, hda⟩ := List.mem_map.mp hdi
    obtain ⟨b, hb, hdb⟩ := List.mem_map.mp hdj
    have hasort : a ∈ sortArticles p.isAscending (db.filter (pagedFilter p)) := by
      have h := ha
      unfold pageWindow at h
      exact List.mem_of_mem_drop (List.mem_of_mem_take h)
    have hbsort : b ∈ sortArticles p.isAscending (db.filter (pagedFilter p)) := by
      have h := hb
      unfold pageWindow at h
      exact List.mem_of_mem_drop (List.mem_of_mem_take h)
    have hid : a.id = b.id := by
      have h := hda.trans hdb.symm
      have h2 := congrArg ArticleResponseDto.id h
      simpa [mapToArticleResponseDto] using h2
    have hmapnd : ((sortArticles p.isAscending (db.filter (pagedFilter p))).map
        Article.id).Nodup := by
      have h1 : ((db.filter (pagedFilter p)).map Article.id).Nodup :=
        ((List.filter_sublist db).map Article.id).nodup hnodup
      exact (((sortArticles_perm p.isAscending _).map Article.id).nodup_iff).mpr h1
    have hab : a = b := List.inj_on_of_nodup_map hmapnd hasort hbsort hid
    subst hab
    rcases Nat.lt_or_ge i j with h | h
    · exact pageWindow_disjoint hnd _ h a ha hb
    · exact pageWindow_disjoint hnd _ (lt_of_le_of_ne h (Ne.symm hij)) a hb ha

/-- Witness for C6: three concrete published articles, two-row pages, two
pages covering all rows. -/
theorem getPagedArticles_totalCount_partition_witness :
    pagedTotalCount exPagedDb exPagedParams
      = (exPagedDb.filter (pagedFilter exPagedParams)).length
  ∧ ((List.range 2).map (fun i =>
        (pagedItems exPagedDb { exPagedParams with page := ((i + 1 : Nat) : Int) }).length)).sum
      = pagedTotalCount exPagedDb exPagedParams
  ∧ (∀ (i j : Nat), i ≠ j →
        ∀ d ∈ pagedItems exPagedDb { exPagedParams with page := ((i + 1 : Nat) : Int) },
          d ∉ pagedItems exPagedDb { exPagedParams with page := ((j + 1 : Nat) : Int) }) :=
  getPagedArticles_totalCount_partition exPagedDb exPagedParams (by decide) (by decide) 2
    (by decide)

end Blog
